import Mathlib

/-!
# flare-p-chain-indexer: mirror cronjob stubs, transaction reconstruction, credentials

A shallow embedding of

* `indexer/cronjob/mirror_stubs.go` (`mirrorDBGorm.UpdateJobState`, `initMirrorJobContracts`),
* `indexer/shared/base_tx.go` (`TxOutputsFromTxOuts`, `UpdateTransferableOutput`,
  `RewardsOwnerAddress`, `TxInputsFromBaseTx`),
* `config/config.go` (`ChainConfig.GetPrivateKey`),

followed by the properties of these functions.

Conventions.  A Go `error` is an `Option Error` (`none` is `nil`); a Go result pair
`(v, err)` is a Lean pair.  `uint64`/`uint32` values are natural numbers, an `int64` is an
integer, and the Go conversions between them are written out with their wrap-around.
Side effects (database operations, log lines, external calls) are recorded in explicit traces.
Pointers held in slices and passed as arguments are taken to be non-nil, and the content of a
file is taken to be valid UTF-8 text.
-/

set_option autoImplicit false

/-- Go error values: a message (`errors.New`, `fmt.Errorf` without a cause) or a message
wrapped around a cause (`errors.Wrap`, `fmt.Errorf` with `%w`). -/
inductive Error where
  | msg (text : String)
  | wrap (cause : Error) (text : String)
deriving DecidableEq, Repr

/-- The Go conversion `uint64(x)` of a signed 64-bit integer: reduction modulo `2^64`. -/
def uint64 (x : Int) : Nat := (x % 2 ^ 64).toNat

/-- The Go conversion `uint32(i)` of a non-negative `int`: reduction modulo `2^32`. -/
def uint32 (i : Nat) : Nat := i % 2 ^ 32

/-- Range of the Go type `int64`. -/
def IsInt64 (x : Int) : Prop := -(2 ^ 63) ≤ x ∧ x < 2 ^ 63

instance (x : Int) : Decidable (IsInt64 x) := by
  unfold IsInt64
  infer_instance

/-! ## Package `config`: `config.go` -/

namespace config

/-- The predicate `unicode.IsSpace` of the Go library: the Latin-1 spaces and the characters
with the Unicode property White Space. -/
def isSpace (c : Char) : Bool :=
  c.val = 0x09 || c.val = 0x0A || c.val = 0x0B || c.val = 0x0C || c.val = 0x0D || c.val = 0x20
    || c.val = 0x85 || c.val = 0xA0 || c.val = 0x1680
    || (0x2000 ≤ c.val && c.val ≤ 0x200A)
    || c.val = 0x2028 || c.val = 0x2029 || c.val = 0x202F || c.val = 0x205F || c.val = 0x3000

/-- The function `strings.TrimSpace` of the Go library: the string without its leading and
trailing white space. -/
def TrimSpace (s : String) : String :=
  String.mk (((s.data.dropWhile isSpace).reverse.dropWhile isSpace).reverse)

/-- The type `ChainConfig`. -/
structure ChainConfig where
  NodeURL : String
  ChainAddressHRP : String
  ChainID : Int
  EthRPCURL : String
  ApiKey : String
  PrivateKey : String
  PrivateKeyFile : String
deriving DecidableEq, Repr

/-- The file system as `os.ReadFile` sees it: the content of a file, or the error of the read. -/
abbrev FileSystem := String → Except Error String

/-- What a call of `GetPrivateKey` yields: the pair it returns and the lines it logs. -/
structure KeyResult where
  key : String
  err : Option Error
  logged : List String
deriving DecidableEq, Repr

/-- The method `ChainConfig.GetPrivateKey() (string, error)`. -/
def ChainConfig.GetPrivateKey (fs : FileSystem) (cfg : ChainConfig) : KeyResult :=
  if cfg.PrivateKeyFile = "" then
    { key := cfg.PrivateKey, err := none,
      logged := ["WARNING: using private_key is deprecated, use private_key_file instead"] }
  else
    match fs cfg.PrivateKeyFile with
    | Except.error err =>
      { key := "", err := some (Error.wrap err "error opening private key file"), logged := [] }
    | Except.ok content => { key := TrimSpace content, err := none, logged := [] }

/-- A file system with the single file `/run/key`, used in the examples. -/
def sampleFS : FileSystem := fun path =>
  if path = "/run/key" then Except.ok " 0xabc\n" else Except.error (Error.msg "no such file")

/-- A chain configuration with both an inline key and a key file, used in the examples. -/
def sampleChain : ChainConfig :=
  { NodeURL := "", ChainAddressHRP := "flare", ChainID := 14, EthRPCURL := "http://rpc",
    ApiKey := "", PrivateKey := "inline", PrivateKeyFile := "/run/key" }

end config

/-! ## Package `database` (the part used by the mirror cronjob) -/

namespace database

/-- Modelled from the spec: the type `database.State` is not among the sources.  The job state
record is `{job_name: string, next_index: uint64}`, keyed by job name, one row per job. -/
structure State where
  Name : String
  NextDBIndex : Nat
deriving DecidableEq, Repr

/-- The backing store seen through a `*gorm.DB` handle: the rows of the state table, and the
outcome the store gives to the opening of a transaction, to reads, to writes and to a commit
(`none`: the statement goes through). -/
structure DB where
  states : List State
  beginErr : Option Error
  fetchErr : Option Error
  updateErr : Option Error
  commitErr : Option Error
deriving DecidableEq, Repr

/-- Statements issued against the store, in the order they are issued. -/
inductive Op where
  | begin
  | fetchState (name : String)
  | updateState (s : State)
  | commit
  | rollback
deriving DecidableEq, Repr

/-- A handle together with the statements issued on it so far. -/
structure Handle where
  db : DB
  log : List Op
deriving DecidableEq, Repr

/-- Row of the job called `name`, if there is one. -/
def lookup (name : String) : List State → Option State
  | [] => none
  | s :: rest => if s.Name = name then some s else lookup name rest

/-- Replace the row keyed by `s.Name`, or add it when the job has no row yet. -/
def save (s : State) : List State → List State
  | [] => [s]
  | r :: rest => if r.Name = s.Name then s :: rest else r :: save s rest

/-- The state a read of job `name` yields on the rows `rows`. -/
def current (name : String) (rows : List State) : State :=
  match lookup name rows with
  | some s => s
  | none => { Name := name, NextDBIndex := 0 }

/-- Modelled from the spec: `database.FetchState` is not among the sources.
"`FetchState(jobName) → (JobState, error)`: returns a zero-valued/default state, not an error,
if no prior record exists (first run)"; the default state of a job carries the job's name and
index zero.  A failing store returns its error. -/
def FetchState (h : Handle) (name : String) : (State × Option Error) × Handle :=
  let h1 : Handle := { h with log := h.log ++ [Op.fetchState name] }
  match h.db.fetchErr with
  | some err => (({ Name := "", NextDBIndex := 0 }, some err), h1)
  | none =>
    match lookup name h.db.states with
    | some s => ((s, none), h1)
    | none => (({ Name := name, NextDBIndex := 0 }, none), h1)

/-- Modelled from the spec: `database.UpdateState` is not among the sources.  It writes the
given record to the row keyed by its job name; a failing store returns its error and writes
nothing. -/
def UpdateState (h : Handle) (s : State) : Option Error × Handle :=
  let log1 := h.log ++ [Op.updateState s]
  match h.db.updateErr with
  | some err => (some err, { h with log := log1 })
  | none => (none, { db := { h.db with states := save s h.db.states }, log := log1 })

/-- The `Transaction` method of a `*gorm.DB` (outside any enclosing transaction): open a
transaction and return the error of `Begin` if there is one; otherwise run `fc` on the
transaction handle; when `fc` returns an error, roll back and return it; when `fc` returns
`nil`, commit and return the error of `Commit`, rolling back when the commit fails. -/
def Transaction (db : DB) (fc : Handle → Option Error × Handle) : Option Error × Handle :=
  match db.beginErr with
  | some err => (some err, { db := db, log := [Op.begin] })
  | none =>
    match fc { db := db, log := [Op.begin] } with
    | (some err, tx) => (some err, { db := db, log := tx.log ++ [Op.rollback] })
    | (none, tx) =>
      match db.commitErr with
      | some err => (some err, { db := db, log := tx.log ++ [Op.commit, Op.rollback] })
      | none => (none, { db := tx.db, log := tx.log ++ [Op.commit] })

end database

/-! ## Package `cronjob`: `mirror_stubs.go` -/

namespace cronjob

open database

/-- The method `mirrorDBGorm.UpdateJobState(epoch int64, force bool) error`, on the store `db`
held by the receiver.  The constant `mirrorStateName` is declared outside the sources and is a
parameter.  The result is the returned error and the store after the call, with the statements
issued. -/
def mirrorDBGorm.UpdateJobState (mirrorStateName : String) (db : DB) (epoch : Int)
    (force : Bool) : Option Error × Handle :=
  Transaction db fun tx =>
    match FetchState tx mirrorStateName with
    | ((_, some err), tx1) => (some (Error.wrap err "database.FetchState"), tx1)
    | ((jobState, none), tx1) =>
      if !force && decide (jobState.NextDBIndex ≥ uint64 epoch) then
        (none, tx1)
      else
        UpdateState tx1 { jobState with NextDBIndex := uint64 epoch }

/-- The method `mirrorDBGorm.FetchState(name)`: a read outside any transaction. -/
def mirrorDBGorm.FetchState (db : DB) (name : String) : State × Option Error :=
  (database.FetchState { db := db, log := [] } name).1

/-- An Ethereum address (`common.Address`, twenty bytes), as its bytes. -/
structure Address where
  bytes : List Nat
deriving DecidableEq, Repr

/-- The zero value `common.Address{}`. -/
def Address.zero : Address := { bytes := List.replicate 20 0 }

/-- The contract addresses of the indexer configuration that `initMirrorJobContracts` reads. -/
structure ContractAddresses where
  Mirroring : Address
  Voting : Address
deriving DecidableEq, Repr

/-- The type `config.Config` of the indexer, declared outside the sources, reduced to the
fields `initMirrorJobContracts` reads. -/
structure Config where
  ContractAddresses : ContractAddresses
  Chain : config.ChainConfig
deriving DecidableEq, Repr

/-- An RPC client returned by `ethclient.Dial`. -/
structure EthClient where
  id : Nat
deriving DecidableEq, Repr

/-- A bound contract (`*mirroring.Mirroring`, `*voting.Voting`, `*addresses.Binder`). -/
structure Contract where
  id : Nat
deriving DecidableEq, Repr

/-- Transaction options (`*bind.TransactOpts`). -/
structure TransactOpts where
  id : Nat
deriving DecidableEq, Repr

/-- The type `mirrorContractsCChain`. -/
structure mirrorContractsCChain where
  mirroring : Contract
  addressBinder : Contract
  txOpts : TransactOpts
  voting : Contract
deriving DecidableEq, Repr

/-- The functions `initMirrorJobContracts` calls that are declared outside the sources, and the
file system. -/
structure World where
  Dial : String → Except Error EthClient
  NewMirroring : Address → EthClient → Except Error Contract
  NewVoting : Address → EthClient → Except Error Contract
  newAddressBinderContract : EthClient → Contract → Except Error Contract
  TransactOptsFromPrivateKey : String → Int → Except Error TransactOpts
  fs : config.FileSystem

/-- Calls made to the outside, in the order they are made. -/
inductive Call where
  | Dial (url : String)
  | NewMirroring (a : Address)
  | NewVoting (a : Address)
  | newAddressBinderContract
  | GetPrivateKey
  | TransactOptsFromPrivateKey
deriving DecidableEq, Repr

/-- What a call of `initMirrorJobContracts` yields: the pair it returns (`none` is the `nil`
interface value) and the calls it made. -/
structure InitResult where
  contracts : Option mirrorContractsCChain
  err : Option Error
  calls : List Call
deriving DecidableEq, Repr

/-- The function `initMirrorJobContracts(cfg) (mirrorContracts, error)`. -/
def initMirrorJobContracts (w : World) (cfg : Config) : InitResult :=
  if cfg.ContractAddresses.Mirroring = Address.zero then
    { contracts := none, err := some (Error.msg "mirroring contract address not set"),
      calls := [] }
  else if cfg.ContractAddresses.Voting = Address.zero then
    { contracts := none, err := some (Error.msg "voting contract address not set"), calls := [] }
  else
    let c1 := [Call.Dial cfg.Chain.EthRPCURL]
    match w.Dial cfg.Chain.EthRPCURL with
    | Except.error err => { contracts := none, err := some err, calls := c1 }
    | Except.ok eth =>
      let c2 := c1 ++ [Call.NewMirroring cfg.ContractAddresses.Mirroring]
      match w.NewMirroring cfg.ContractAddresses.Mirroring eth with
      | Except.error err => { contracts := none, err := some err, calls := c2 }
      | Except.ok mirroringContract =>
        let c3 := c2 ++ [Call.NewVoting cfg.ContractAddresses.Voting]
        match w.NewVoting cfg.ContractAddresses.Voting eth with
        | Except.error err => { contracts := none, err := some err, calls := c3 }
        | Except.ok votingContract =>
          let c4 := c3 ++ [Call.newAddressBinderContract]
          match w.newAddressBinderContract eth mirroringContract with
          | Except.error err => { contracts := none, err := some err, calls := c4 }
          | Except.ok addressBinderContract =>
            let c5 := c4 ++ [Call.GetPrivateKey]
            let k := cfg.Chain.GetPrivateKey w.fs
            match k.err with
            | some err => { contracts := none, err := some err, calls := c5 }
            | none =>
              let c6 := c5 ++ [Call.TransactOptsFromPrivateKey]
              match w.TransactOptsFromPrivateKey k.key cfg.Chain.ChainID with
              | Except.error err => { contracts := none, err := some err, calls := c6 }
              | Except.ok txOpts =>
                { contracts := some
                    { mirroring := mirroringContract, addressBinder := addressBinderContract,
                      txOpts := txOpts, voting := votingContract },
                  err := none, calls := c6 }

/-- A store with the rows of two jobs, used in the examples. -/
def sampleDB : database.DB :=
  { states := [{ Name := "mirror", NextDBIndex := 5 }, { Name := "other", NextDBIndex := 7 }],
    beginErr := none, fetchErr := none, updateErr := none, commitErr := none }

/-- The store `sampleDB` when commits fail, used in the examples. -/
def sampleDBNoCommit : database.DB :=
  { sampleDB with commitErr := some (Error.msg "commit failed") }

/-- The store `sampleDB` when transactions cannot be opened, used in the examples. -/
def sampleDBNoBegin : database.DB :=
  { sampleDB with beginErr := some (Error.msg "connection refused") }

/-- A store whose job row holds the largest index, used in the examples. -/
def sampleDBMax : database.DB :=
  { states := [{ Name := "mirror", NextDBIndex := 2 ^ 64 - 1 }],
    beginErr := none, fetchErr := none, updateErr := none, commitErr := none }

/-- A world in which every outside call succeeds and the only file is `/run/key`, used in the
examples. -/
def sampleWorld : World :=
  { Dial := fun _ => Except.ok { id := 1 },
    NewMirroring := fun _ _ => Except.ok { id := 2 },
    NewVoting := fun _ _ => Except.ok { id := 3 },
    newAddressBinderContract := fun _ _ => Except.ok { id := 4 },
    TransactOptsFromPrivateKey := fun _ _ => Except.ok { id := 5 },
    fs := config.sampleFS }

/-- A non-zero contract address, used in the examples. -/
def sampleAddress : Address := { bytes := List.replicate 19 0 ++ [1] }

/-- A configuration whose voting contract address is not set, used in the examples. -/
def configNoVoting : Config :=
  { ContractAddresses := { Mirroring := sampleAddress, Voting := Address.zero },
    Chain := config.sampleChain }

/-- A configuration whose private-key file does not exist, used in the examples. -/
def configNoKeyFile : Config :=
  { ContractAddresses := { Mirroring := sampleAddress, Voting := sampleAddress },
    Chain := { config.sampleChain with PrivateKeyFile := "/run/missing" } }

end cronjob

/-! ## Package `shared`: `base_tx.go` -/

namespace shared

/-- An `ids.ShortID` (an address), as its bytes. -/
abbrev ShortID := List Nat

/-- An `ids.ID` (a transaction id), as its bytes. -/
abbrev ID := List Nat

/-- The dynamic type of the `Out` field of an `avax.TransferableOutput`: either a
`*secp256k1fx.TransferOutput`, with its amount `Amt` and its owner addresses `Addrs`, or a
value of another output type (told apart by `kind`). -/
inductive Out where
  | TransferOutput (Amt : Nat) (Addrs : List ShortID)
  | Other (kind : Nat)
deriving DecidableEq, Repr

/-- The type `avax.TransferableOutput`, reduced to the field the reconstruction reads. -/
structure TransferableOutput where
  Out : Out
deriving DecidableEq, Repr

/-- The dynamic type of an `fx.Owner`: either a `*secp256k1fx.OutputOwners` with its address
list, or a value of another owner type. -/
inductive Owner where
  | OutputOwners (Addrs : List ShortID)
  | Other (kind : Nat)
deriving DecidableEq, Repr

/-- The type `avax.TransferableInput`, reduced to its `UTXOID` fields. -/
structure TransferableInput where
  TxID : ID
  OutputIndex : Nat
deriving DecidableEq, Repr

/-- The type `avax.BaseTx`, reduced to its inputs. -/
structure BaseTx where
  Ins : List TransferableInput
deriving DecidableEq, Repr

/-- Modelled from the spec: the type `database.TxOutput` is not among the sources.
"`TxOutput`: transaction id, output index, amount, address (chain-native string encoding)". -/
structure TxOutput where
  TxID : String
  Idx : Nat
  Amount : Nat
  Address : String
deriving DecidableEq, Repr

/-- Modelled from the spec: the type `database.TxInput` is not among the sources.
"`TxInput`: transaction id, referenced (outer) transaction id, referenced output index", and an
address that reconstruction leaves unset. -/
structure TxInput where
  TxID : String
  OutTxID : String
  OutIdx : Nat
  Address : String
deriving DecidableEq, Repr

/-- Signature of `utils.FormatAddressBytes(addr []byte) (string, error)`, which is declared
outside the sources and is a parameter of the functions below. -/
abbrev AddressFormat := List Nat → String × Option Error

/-- The function `UpdateTransferableOutput(dbOut, out) error`: the returned error, and the
record `dbOut` points to after the call. -/
def UpdateTransferableOutput (FormatAddressBytes : AddressFormat) (dbOut : TxOutput)
    (out : TransferableOutput) : Option Error × TxOutput :=
  match out.Out with
  | Out.Other _ => (some (Error.msg "TransferableOutput has unsupported type"), dbOut)
  | Out.TransferOutput Amt Addrs =>
    if h : Addrs.length ≠ 1 then
      (some (Error.msg "TransferableOutput has 0 or more than one address"), dbOut)
    else
      match FormatAddressBytes (Addrs.get ⟨0, by omega⟩) with
      | (_, some err) => (some err, dbOut)
      | (addr, none) => (none, { dbOut with Amount := Amt, Address := addr })

/-- The loop of `TxOutputsFromTxOuts` from index `outi` on: the records built for the remaining
outputs, or the error that ends the loop. -/
def TxOutputsFromTxOuts.loop (FormatAddressBytes : AddressFormat) (txID : String) :
    Nat → List TransferableOutput → Except Error (List TxOutput)
  | _, [] => Except.ok []
  | outi, cout :: rest =>
    match UpdateTransferableOutput FormatAddressBytes
        { TxID := txID, Idx := uint32 outi, Amount := 0, Address := "" } cout with
    | (some err, _) => Except.error err
    | (none, dbOut) =>
      match TxOutputsFromTxOuts.loop FormatAddressBytes txID (outi + 1) rest with
      | Except.error err => Except.error err
      | Except.ok txOuts => Except.ok (dbOut :: txOuts)

/-- The function `TxOutputsFromTxOuts(txID, outs) ([]*database.TxOutput, error)`; the slice
`nil` is `none`. -/
def TxOutputsFromTxOuts (FormatAddressBytes : AddressFormat) (txID : String)
    (outs : List TransferableOutput) : Option (List TxOutput) × Option Error :=
  match TxOutputsFromTxOuts.loop FormatAddressBytes txID 0 outs with
  | Except.error err => (none, some err)
  | Except.ok txOuts => (some txOuts, none)

/-- The function `RewardsOwnerAddress(owner fx.Owner) (string, error)`. -/
def RewardsOwnerAddress (FormatAddressBytes : AddressFormat) (owner : Owner) :
    String × Option Error :=
  match owner with
  | Owner.Other _ => ("", some (Error.msg "rewards owner has unsupported type"))
  | Owner.OutputOwners Addrs =>
    if h : Addrs.length ≠ 1 then
      ("", some (Error.msg "rewards owner has 0 or more than one address"))
    else
      FormatAddressBytes (Addrs.get ⟨0, by omega⟩)

/-- The function `TxInputsFromBaseTx(txID, baseTx) []*database.TxInput`.  The method
`ids.ID.String` belongs to a library and is the parameter `idString`. -/
def TxInputsFromBaseTx (idString : ID → String) (txID : String) (baseTx : BaseTx) :
    List TxInput :=
  baseTx.Ins.map fun input =>
    { TxID := txID, OutTxID := idString input.TxID, OutIdx := input.OutputIndex, Address := "" }

end shared

/-! ## Properties of the job state store -/

namespace database

theorem lookup_name (name : String) (rows : List State) (s : State)
    (h : lookup name rows = some s) : s.Name = name := by
  induction rows with
  | nil => simp [lookup] at h
  | cons r rest ih =>
    simp only [lookup] at h
    split at h
    · next hr => cases h; exact hr
    · exact ih h

theorem current_name (name : String) (rows : List State) : (current name rows).Name = name := by
  unfold current
  split
  · next s hs => exact lookup_name name rows s hs
  · rfl

theorem lookup_save (s : State) (rows : List State) : lookup s.Name (save s rows) = some s := by
  induction rows with
  | nil => simp [save, lookup]
  | cons r rest ih =>
    simp only [save]
    split
    · simp [lookup]
    · next hr => simp [lookup, hr, ih]

theorem current_save (s : State) (rows : List State) : current s.Name (save s rows) = s := by
  simp [current, lookup_save]

theorem fetchState_ok (db : DB) (log : List Op) (name : String) (hf : db.fetchErr = none) :
    FetchState { db := db, log := log } name
      = ((current name db.states, none), { db := db, log := log ++ [Op.fetchState name] }) := by
  unfold FetchState current
  simp only [hf]
  cases lookup name db.states <;> rfl

end database

namespace cronjob

open database

/-- A transaction that returns `nil` was opened and committed without error. -/
theorem transaction_success (db : DB) (fc : Handle → Option Error × Handle)
    (hok : (Transaction db fc).1 = none) : db.beginErr = none ∧ db.commitErr = none := by
  unfold Transaction at hok
  cases hb : db.beginErr with
  | some err => simp [hb] at hok
  | none =>
    refine ⟨rfl, ?_⟩
    cases hc : db.commitErr with
    | none => rfl
    | some err =>
      rcases hfc : fc { db := db, log := [Op.begin] } with ⟨e, tx⟩
      cases e <;> simp [hb, hc, hfc] at hok

theorem updateJobState_success_errs (name : String) (db : DB) (epoch : Int) (force : Bool)
    (hok : (mirrorDBGorm.UpdateJobState name db epoch force).1 = none) :
    db.beginErr = none ∧ db.commitErr = none :=
  transaction_success db _ hok

theorem updateJobState_fetch_error (name : String) (db : DB) (epoch : Int) (force : Bool)
    (err : Error) (hb : db.beginErr = none) (hf : db.fetchErr = some err) :
    mirrorDBGorm.UpdateJobState name db epoch force
      = (some (Error.wrap err "database.FetchState"),
          { db := db, log := [Op.begin, Op.fetchState name, Op.rollback] }) := by
  simp [mirrorDBGorm.UpdateJobState, Transaction, FetchState, hb, hf]

theorem updateJobState_skip (name : String) (db : DB) (epoch : Int)
    (hb : db.beginErr = none) (hc : db.commitErr = none)
    (hf : db.fetchErr = none) (hge : uint64 epoch ≤ (current name db.states).NextDBIndex) :
    mirrorDBGorm.UpdateJobState name db epoch false
      = (none, { db := db, log := [Op.begin, Op.fetchState name, Op.commit] }) := by
  simp [mirrorDBGorm.UpdateJobState, Transaction, fetchState_ok, hb, hc, hf, hge]

theorem updateJobState_write (name : String) (db : DB) (epoch : Int) (force : Bool)
    (hb : db.beginErr = none) (hc : db.commitErr = none)
    (hf : db.fetchErr = none)
    (hw : force = true ∨ (current name db.states).NextDBIndex < uint64 epoch) :
    mirrorDBGorm.UpdateJobState name db epoch force
      = match db.updateErr with
        | some err =>
          (some err,
            { db := db,
              log := [Op.begin, Op.fetchState name,
                Op.updateState { current name db.states with NextDBIndex := uint64 epoch },
                Op.rollback] })
        | none =>
          (none,
            { db := { db with
                states := save { current name db.states with NextDBIndex := uint64 epoch }
                  db.states },
              log := [Op.begin, Op.fetchState name,
                Op.updateState { current name db.states with NextDBIndex := uint64 epoch },
                Op.commit] }) := by
  have hg : (!force && decide ((current name db.states).NextDBIndex ≥ uint64 epoch)) = false := by
    rcases hw with h | h
    · simp [h]
    · simp [h]
  simp only [mirrorDBGorm.UpdateJobState, Transaction, fetchState_ok db _ name hf, hg, hb, hc]
  cases hu : db.updateErr <;> simp [UpdateState, hu, hb, hc]

theorem mirrorFetchState_ok (db : DB) (name : String) (hf : db.fetchErr = none) :
    mirrorDBGorm.FetchState db name = (current name db.states, none) := by
  simp [mirrorDBGorm.FetchState, fetchState_ok, hf]

theorem fetchErr_of_read (db : DB) (name : String) (s : State)
    (hread : mirrorDBGorm.FetchState db name = (s, none)) : db.fetchErr = none := by
  cases hf : db.fetchErr with
  | none => rfl
  | some err => simp [mirrorDBGorm.FetchState, FetchState, hf] at hread

theorem uint64_le_of_nonneg (x : Int) (h0 : 0 ≤ x) : ((uint64 x : Nat) : Int) ≤ x := by
  unfold uint64
  have hpos : (0 : Int) ≤ x % 2 ^ 64 := Int.emod_nonneg _ (by norm_num)
  rw [Int.toNat_of_nonneg hpos]
  omega

theorem uint64_of_nonneg (x : Int) (h0 : 0 ≤ x) (h1 : x < 2 ^ 64) : (uint64 x : Int) = x := by
  unfold uint64
  rw [Int.emod_eq_of_lt h0 h1]
  exact Int.toNat_of_nonneg h0

theorem le_uint64 (x : Int) (h1 : x < 2 ^ 64) : x ≤ (uint64 x : Int) := by
  unfold uint64
  have hpos : (0 : Int) ≤ x % 2 ^ 64 := Int.emod_nonneg _ (by norm_num)
  rw [Int.toNat_of_nonneg hpos]
  by_cases h0 : 0 ≤ x
  · rw [Int.emod_eq_of_lt h0 h1]
  · omega

end cronjob

namespace cronjob

open database

/-- C1, as stated, fails.  With the stored index 5 and the target epoch -1 (an `int64` that is
below the stored index), the non-forced call returns success but writes the index
`uint64(-1) = 2^64 - 1` to the store.  And with the target epoch 3 on a store that fails to
commit, or that cannot open a transaction, the call returns the error of the store. -/
theorem updateJobState_negative_target_writes :
    (IsInt64 (-1)
      ∧ mirrorDBGorm.FetchState sampleDB "mirror"
          = ({ Name := "mirror", NextDBIndex := 5 }, none)
      ∧ (-1 : Int) ≤ ((5 : Nat) : Int)
      ∧ (mirrorDBGorm.UpdateJobState "mirror" sampleDB (-1) false).1 = none
      ∧ (mirrorDBGorm.UpdateJobState "mirror" sampleDB (-1) false).2.db ≠ sampleDB
      ∧ (mirrorDBGorm.FetchState (mirrorDBGorm.UpdateJobState "mirror" sampleDB (-1) false).2.db
          "mirror").1.NextDBIndex = 2 ^ 64 - 1
      ∧ Op.updateState { Name := "mirror", NextDBIndex := 2 ^ 64 - 1 }
          ∈ (mirrorDBGorm.UpdateJobState "mirror" sampleDB (-1) false).2.log)
    ∧ (mirrorDBGorm.FetchState sampleDBNoCommit "mirror"
          = ({ Name := "mirror", NextDBIndex := 5 }, none)
      ∧ (3 : Int) ≤ ((5 : Nat) : Int)
      ∧ mirrorDBGorm.UpdateJobState "mirror" sampleDBNoCommit 3 false
          = (some (Error.msg "commit failed"),
              { db := sampleDBNoCommit,
                log := [Op.begin, Op.fetchState "mirror", Op.commit, Op.rollback] }))
    ∧ mirrorDBGorm.UpdateJobState "mirror" sampleDBNoBegin 3 false
        = (some (Error.msg "connection refused"),
            { db := sampleDBNoBegin, log := [Op.begin] }) := by
  decide

/-- C1, amended: when the store opens and commits the transaction without error, the read of
the job state returns `s`, and the target epoch satisfies `uint64(epoch) ≤ s.NextDBIndex`
(every epoch with `0 ≤ epoch ≤ s.NextDBIndex` does, and so does a negative epoch whose
conversion `2^64 + epoch` is at most the stored index), the non-forced `UpdateJobState`
returns `nil`, leaves the store unchanged, and its transaction holds the read alone (no
`UpdateState`). -/
theorem updateJobState_idempotent (mirrorStateName : String) (db : DB) (epoch : Int) (s : State)
    (hbegin : db.beginErr = none) (hcommit : db.commitErr = none)
    (hread : mirrorDBGorm.FetchState db mirrorStateName = (s, none))
    (hle : (0 ≤ epoch ∧ epoch ≤ (s.NextDBIndex : Int)) ∨ uint64 epoch ≤ s.NextDBIndex) :
    (mirrorDBGorm.UpdateJobState mirrorStateName db epoch false).1 = none
    ∧ (mirrorDBGorm.UpdateJobState mirrorStateName db epoch false).2.db = db
    ∧ (mirrorDBGorm.UpdateJobState mirrorStateName db epoch false).2.log
        = [Op.begin, Op.fetchState mirrorStateName, Op.commit] := by
  have hf : db.fetchErr = none := fetchErr_of_read db mirrorStateName s hread
  have hs : current mirrorStateName db.states = s := by
    rw [mirrorFetchState_ok db mirrorStateName hf] at hread
    exact (Prod.mk.inj hread).1
  have hge : uint64 epoch ≤ (current mirrorStateName db.states).NextDBIndex := by
    rw [hs]
    rcases hle with ⟨h0, h⟩ | h
    · have h1 : ((uint64 epoch : Nat) : Int) ≤ epoch := uint64_le_of_nonneg epoch h0
      omega
    · exact h
  rw [updateJobState_skip mirrorStateName db epoch hbegin hcommit hf hge]
  exact ⟨rfl, rfl, rfl⟩

/-- Instance of C1 (amended): stored index 5 with target epoch 3, and stored index `2^64 - 1`
with target epoch -1. -/
theorem updateJobState_idempotent_witness :
    ((mirrorDBGorm.UpdateJobState "mirror" sampleDB 3 false).1 = none
      ∧ (mirrorDBGorm.UpdateJobState "mirror" sampleDB 3 false).2.db = sampleDB
      ∧ (mirrorDBGorm.UpdateJobState "mirror" sampleDB 3 false).2.log
          = [Op.begin, Op.fetchState "mirror", Op.commit])
    ∧ (mirrorDBGorm.UpdateJobState "mirror" sampleDBMax (-1) false).1 = none
      ∧ (mirrorDBGorm.UpdateJobState "mirror" sampleDBMax (-1) false).2.db = sampleDBMax
      ∧ (mirrorDBGorm.UpdateJobState "mirror" sampleDBMax (-1) false).2.log
          = [Op.begin, Op.fetchState "mirror", Op.commit] :=
  ⟨updateJobState_idempotent "mirror" sampleDB 3 { Name := "mirror", NextDBIndex := 5 }
      (by decide) (by decide) (by decide) (Or.inl (by decide)),
    updateJobState_idempotent "mirror" sampleDBMax (-1)
      { Name := "mirror", NextDBIndex := 2 ^ 64 - 1 }
      (by decide) (by decide) (by decide) (Or.inr (by decide))⟩

/-- What a successful `UpdateJobState` leaves in the store: the store is unchanged and the
stored index is already at least `uint64(epoch)` (only when `force` is off), or the row of the
job now holds the state read with its index set to `uint64(epoch)`. -/
theorem updateJobState_success_cases (name : String) (db : DB) (epoch : Int) (force : Bool)
    (hok : (mirrorDBGorm.UpdateJobState name db epoch force).1 = none) :
    db.fetchErr = none
    ∧ ((force = false ∧ uint64 epoch ≤ (current name db.states).NextDBIndex
          ∧ (mirrorDBGorm.UpdateJobState name db epoch force).2.db = db)
        ∨ ((force = true ∨ (current name db.states).NextDBIndex < uint64 epoch)
          ∧ (mirrorDBGorm.UpdateJobState name db epoch force).2.db
              = { db with
                  states := save { current name db.states with NextDBIndex := uint64 epoch }
                    db.states })) := by
  obtain ⟨hb, hc⟩ := updateJobState_success_errs name db epoch force hok
  cases hf : db.fetchErr with
  | some err =>
    rw [updateJobState_fetch_error name db epoch force err hb hf] at hok
    simp at hok
  | none =>
    refine ⟨rfl, ?_⟩
    by_cases hw : force = true ∨ (current name db.states).NextDBIndex < uint64 epoch
    · right
      refine ⟨hw, ?_⟩
      rw [updateJobState_write name db epoch force hb hc hf hw] at hok ⊢
      cases hu : db.updateErr with
      | some err => simp [hu] at hok
      | none => simp [hf, hu, hb, hc]
    · left
      have hforce : force = false := by
        cases force
        · rfl
        · exact absurd (Or.inl rfl) hw
      have hge : uint64 epoch ≤ (current name db.states).NextDBIndex := by
        have := fun h => hw (Or.inr h)
        omega
      subst hforce
      rw [updateJobState_skip name db epoch hb hc hf hge]
      exact ⟨rfl, hge, rfl⟩

theorem read_after_write (name : String) (db : DB) (idx : Nat) (hf : db.fetchErr = none) :
    mirrorDBGorm.FetchState
        { db with states := save { current name db.states with NextDBIndex := idx } db.states }
        name
      = ({ current name db.states with NextDBIndex := idx }, none) := by
  rw [mirrorFetchState_ok
    { db with states := save { current name db.states with NextDBIndex := idx } db.states }
    name hf]
  have hn : ({ current name db.states with NextDBIndex := idx } : State).Name = name :=
    current_name name db.states
  have := current_save { current name db.states with NextDBIndex := idx } db.states
  rw [hn] at this
  simp only [this]

/-- C2: if the non-forced `UpdateJobState(epoch, false)` returns `nil`, then a read of the job
state afterwards succeeds and its `NextDBIndex` is at least `epoch` (compared as integers). -/
theorem updateJobState_monotonic_progress (mirrorStateName : String) (db : DB) (epoch : Int)
    (hrange : IsInt64 epoch)
    (hok : (mirrorDBGorm.UpdateJobState mirrorStateName db epoch false).1 = none) :
    (mirrorDBGorm.FetchState (mirrorDBGorm.UpdateJobState mirrorStateName db epoch false).2.db
        mirrorStateName).2 = none
    ∧ epoch ≤ (((mirrorDBGorm.FetchState
        (mirrorDBGorm.UpdateJobState mirrorStateName db epoch false).2.db
        mirrorStateName).1.NextDBIndex : Nat) : Int) := by
  have hlt : epoch < 2 ^ 64 := by
    have := hrange.2
    omega
  have hle := le_uint64 epoch hlt
  obtain ⟨hf, hcase⟩ := updateJobState_success_cases mirrorStateName db epoch false hok
  rcases hcase with ⟨_, hge, hdb⟩ | ⟨_, hdb⟩
  · rw [hdb, mirrorFetchState_ok db mirrorStateName hf]
    refine ⟨rfl, ?_⟩
    simp only
    omega
  · rw [hdb, read_after_write mirrorStateName db (uint64 epoch) hf]
    exact ⟨rfl, hle⟩

/-- Instance of C2: stored index 5, target epoch 9. -/
theorem updateJobState_monotonic_progress_witness :
    9 ≤ (((mirrorDBGorm.FetchState
        (mirrorDBGorm.UpdateJobState "mirror" sampleDB 9 false).2.db
        "mirror").1.NextDBIndex : Nat) : Int) :=
  (updateJobState_monotonic_progress "mirror" sampleDB 9 (by decide) (by decide)).2

/-- C3, as stated, fails: a forced call with a target below the stored index succeeds and
lowers the stored index (from 5 to 3). -/
theorem updateJobState_forced_lowers_index :
    (mirrorDBGorm.UpdateJobState "mirror" sampleDB 3 true).1 = none
    ∧ (mirrorDBGorm.FetchState sampleDB "mirror").1.NextDBIndex = 5
    ∧ (mirrorDBGorm.FetchState (mirrorDBGorm.UpdateJobState "mirror" sampleDB 3 true).2.db
        "mirror").1.NextDBIndex = 3
    ∧ ¬ ((mirrorDBGorm.FetchState (mirrorDBGorm.UpdateJobState "mirror" sampleDB 3 true).2.db
          "mirror").1.NextDBIndex
        ≥ (mirrorDBGorm.FetchState sampleDB "mirror").1.NextDBIndex) := by
  decide

/-- C3, amended: if `UpdateJobState(epoch, force)` returns `nil` and either `force` is off or
`uint64(epoch)` is not below the stored index, then the stored `NextDBIndex` after the call is
at least the stored `NextDBIndex` before it. -/
theorem updateJobState_nondecreasing (mirrorStateName : String) (db : DB) (epoch : Int)
    (force : Bool)
    (hforce : force = false
      ∨ (mirrorDBGorm.FetchState db mirrorStateName).1.NextDBIndex ≤ uint64 epoch)
    (hok : (mirrorDBGorm.UpdateJobState mirrorStateName db epoch force).1 = none) :
    (mirrorDBGorm.FetchState db mirrorStateName).1.NextDBIndex
      ≤ (mirrorDBGorm.FetchState (mirrorDBGorm.UpdateJobState mirrorStateName db epoch force).2.db
          mirrorStateName).1.NextDBIndex := by
  obtain ⟨hf, hcase⟩ := updateJobState_success_cases mirrorStateName db epoch force hok
  rw [mirrorFetchState_ok db mirrorStateName hf] at hforce ⊢
  rcases hcase with ⟨_, _, hdb⟩ | ⟨hw, hdb⟩
  · rw [hdb, mirrorFetchState_ok db mirrorStateName hf]
  · rw [hdb, read_after_write mirrorStateName db (uint64 epoch) hf]
    simp only at hforce ⊢
    rcases hforce with h | h
    · rcases hw with hw | hw
      · rw [h] at hw
        exact absurd hw (by decide)
      · exact Nat.le_of_lt hw
    · exact h

/-- Instance of C3 (amended): stored index 5, target epoch 9, not forced. -/
theorem updateJobState_nondecreasing_witness :
    (mirrorDBGorm.FetchState sampleDB "mirror").1.NextDBIndex
      ≤ (mirrorDBGorm.FetchState (mirrorDBGorm.UpdateJobState "mirror" sampleDB 9 false).2.db
          "mirror").1.NextDBIndex :=
  updateJobState_nondecreasing "mirror" sampleDB 9 false (Or.inl rfl) (by decide)

/-- C4, as stated, fails: a forced call with the target epoch -1 succeeds and writes a state
whose index is `2^64 - 1`, which is not the target. -/
theorem updateJobState_forced_negative_target :
    IsInt64 (-1)
    ∧ (mirrorDBGorm.UpdateJobState "mirror" sampleDB (-1) true).1 = none
    ∧ (mirrorDBGorm.UpdateJobState "mirror" sampleDB (-1) true).2.log
        = [Op.begin, Op.fetchState "mirror",
            Op.updateState { Name := "mirror", NextDBIndex := 2 ^ 64 - 1 }, Op.commit]
    ∧ (((2 ^ 64 - 1 : Nat) : Int) ≠ -1) := by
  decide

/-- C4, amended: when the read of the job state returns `s` and `force` is on or
`s.NextDBIndex < epoch`, a successful `UpdateJobState(epoch, force)` runs one transaction made
of exactly that read and one write; the state written is `s` with `NextDBIndex` set to
`uint64(epoch)` and its other field (the job name) kept, this is the state a later read
returns, and `uint64(epoch)` is `epoch` itself whenever `epoch` is not negative. -/
theorem updateJobState_sets_index (mirrorStateName : String) (db : DB) (epoch : Int)
    (force : Bool) (s : State)
    (hrange : IsInt64 epoch)
    (hread : mirrorDBGorm.FetchState db mirrorStateName = (s, none))
    (hadv : force = true ∨ (s.NextDBIndex : Int) < epoch)
    (hok : (mirrorDBGorm.UpdateJobState mirrorStateName db epoch force).1 = none) :
    (mirrorDBGorm.UpdateJobState mirrorStateName db epoch force).2.log
        = [Op.begin, Op.fetchState mirrorStateName,
            Op.updateState { Name := s.Name, NextDBIndex := uint64 epoch }, Op.commit]
    ∧ mirrorDBGorm.FetchState (mirrorDBGorm.UpdateJobState mirrorStateName db epoch force).2.db
        mirrorStateName
        = ({ Name := s.Name, NextDBIndex := uint64 epoch }, none)
    ∧ (0 ≤ epoch → ((uint64 epoch : Nat) : Int) = epoch) := by
  have hlt : epoch < 2 ^ 64 := by
    have := hrange.2
    omega
  have hf : db.fetchErr = none := fetchErr_of_read db mirrorStateName s hread
  have hs : current mirrorStateName db.states = s := by
    rw [mirrorFetchState_ok db mirrorStateName hf] at hread
    exact (Prod.mk.inj hread).1
  have hw : force = true ∨ (current mirrorStateName db.states).NextDBIndex < uint64 epoch := by
    rcases hadv with h | h
    · exact Or.inl h
    · right
      rw [hs]
      have h0 : 0 ≤ epoch := by omega
      have := uint64_of_nonneg epoch h0 hlt
      omega
  obtain ⟨hb, hc⟩ := updateJobState_success_errs mirrorStateName db epoch force hok
  refine ⟨?_, ?_, fun h0 => uint64_of_nonneg epoch h0 hlt⟩
  · rw [updateJobState_write mirrorStateName db epoch force hb hc hf hw] at hok ⊢
    cases hu : db.updateErr with
    | some err => simp [hu] at hok
    | none => simp [hs]
  · have hdb : (mirrorDBGorm.UpdateJobState mirrorStateName db epoch force).2.db
        = { db with
            states := save { current mirrorStateName db.states with NextDBIndex := uint64 epoch }
              db.states } := by
      rcases updateJobState_success_cases mirrorStateName db epoch force hok with
        ⟨_, ⟨hforce, hge, _⟩ | ⟨_, h⟩⟩
      · rcases hw with hw | hw
        · rw [hforce] at hw
          exact absurd hw (by decide)
        · omega
      · exact h
    rw [hdb, read_after_write mirrorStateName db (uint64 epoch) hf, hs]

/-- Instance of C4 (amended): stored index 5, target epoch 9, not forced. -/
theorem updateJobState_sets_index_witness :
    (mirrorDBGorm.UpdateJobState "mirror" sampleDB 9 false).2.log
        = [Op.begin, Op.fetchState "mirror",
            Op.updateState { Name := "mirror", NextDBIndex := uint64 9 }, Op.commit]
    ∧ mirrorDBGorm.FetchState (mirrorDBGorm.UpdateJobState "mirror" sampleDB 9 false).2.db
        "mirror"
        = ({ Name := "mirror", NextDBIndex := uint64 9 }, none) :=
  have h := updateJobState_sets_index "mirror" sampleDB 9 false
    { Name := "mirror", NextDBIndex := 5 } (by decide) (by decide) (Or.inr (by decide))
    (by decide)
  ⟨h.1, h.2.1⟩

end cronjob

/-! ## Properties of the transaction reconstruction -/

namespace shared

/-- C7: `TxInputsFromBaseTx` returns one record per input of the base transaction, in order;
the `i`-th record has `TxID = txID`, `OutTxID` the string form of the referenced transaction
id, `OutIdx` the referenced output index, and an empty address. -/
theorem txInputs_address_deferral (idString : ID → String) (txID : String) (baseTx : BaseTx) :
    (TxInputsFromBaseTx idString txID baseTx).length = baseTx.Ins.length
    ∧ (∀ i (hi : i < baseTx.Ins.length),
        (TxInputsFromBaseTx idString txID baseTx)[i]? = some
          { TxID := txID, OutTxID := idString (baseTx.Ins.get ⟨i, hi⟩).TxID,
            OutIdx := (baseTx.Ins.get ⟨i, hi⟩).OutputIndex, Address := "" })
    ∧ ∀ r ∈ TxInputsFromBaseTx idString txID baseTx, r.Address = "" := by
  refine ⟨by simp [TxInputsFromBaseTx], ?_, ?_⟩
  · intro i hi
    simp [TxInputsFromBaseTx, List.getElem?_map, List.getElem?_eq_getElem hi]
  · intro r hr
    simp only [TxInputsFromBaseTx, List.mem_map] at hr
    obtain ⟨input, _, hin⟩ := hr
    rw [← hin]

/-- C8: `RewardsOwnerAddress` returns the empty string and an error when the owner is not a
`*secp256k1fx.OutputOwners` or the number of its addresses is not one; on an `OutputOwners`
with exactly one address it returns what `utils.FormatAddressBytes` returns on that address;
so a call that returns no error was made on an owner of that shape. -/
theorem rewardsOwnerAddress_resolution (F : AddressFormat) :
    (∀ kind, RewardsOwnerAddress F (Owner.Other kind)
        = ("", some (Error.msg "rewards owner has unsupported type")))
    ∧ (∀ Addrs, Addrs.length ≠ 1 → RewardsOwnerAddress F (Owner.OutputOwners Addrs)
        = ("", some (Error.msg "rewards owner has 0 or more than one address")))
    ∧ (∀ a, RewardsOwnerAddress F (Owner.OutputOwners [a]) = F a)
    ∧ (∀ owner, (RewardsOwnerAddress F owner).2 = none →
        ∃ a, owner = Owner.OutputOwners [a] ∧ (F a).2 = none
          ∧ (RewardsOwnerAddress F owner).1 = (F a).1) := by
  refine ⟨fun _ => rfl, ?_, ?_, ?_⟩
  · intro Addrs hl
    simp [RewardsOwnerAddress, hl]
  · intro a
    simp [RewardsOwnerAddress]
  · intro owner hok
    cases owner with
    | Other k => simp [RewardsOwnerAddress] at hok
    | OutputOwners Addrs =>
      by_cases hl : Addrs.length ≠ 1
      · simp [RewardsOwnerAddress, hl] at hok
      · have hl1 : Addrs.length = 1 := not_not.mp hl
        obtain ⟨a, ha⟩ := List.length_eq_one.mp hl1
        subst ha
        refine ⟨a, rfl, ?_, ?_⟩
        · simpa [RewardsOwnerAddress] using hok
        · simp [RewardsOwnerAddress]

end shared

/-! ## Properties of the credential source -/

namespace config

theorem trim_decompose (p : Char → Bool) (xs : List Char) :
    xs = xs.takeWhile p ++ ((xs.dropWhile p).reverse.dropWhile p).reverse
          ++ ((xs.dropWhile p).reverse.takeWhile p).reverse := by
  have h1 : xs = xs.takeWhile p ++ xs.dropWhile p := (List.takeWhile_append_dropWhile p xs).symm
  have h2 : (xs.dropWhile p).reverse
      = (xs.dropWhile p).reverse.takeWhile p ++ (xs.dropWhile p).reverse.dropWhile p :=
    (List.takeWhile_append_dropWhile p _).symm
  have h3 : xs.dropWhile p
      = ((xs.dropWhile p).reverse.dropWhile p).reverse
          ++ ((xs.dropWhile p).reverse.takeWhile p).reverse := by
    rw [← List.reverse_append, ← h2, List.reverse_reverse]
  rw [List.append_assoc, ← h3]
  exact h1

theorem head_dropWhile (p : Char → Bool) (xs : List Char) (c : Char)
    (h : (xs.dropWhile p).head? = some c) : p c = false := by
  have := List.head?_dropWhile_not p xs
  rw [h] at this
  simpa using this

theorem trim_head (p : Char → Bool) (xs : List Char) (c : Char)
    (h : (((xs.dropWhile p).reverse.dropWhile p).reverse).head? = some c) : p c = false := by
  have hd := trim_decompose p xs
  have h3 : xs.dropWhile p
      = ((xs.dropWhile p).reverse.dropWhile p).reverse
          ++ ((xs.dropWhile p).reverse.takeWhile p).reverse := by
    have h2 := (List.takeWhile_append_dropWhile p (xs.dropWhile p).reverse).symm
    rw [← List.reverse_append, ← h2, List.reverse_reverse]
  apply head_dropWhile p xs c
  rw [h3]
  cases hz : ((xs.dropWhile p).reverse.dropWhile p).reverse with
  | nil => rw [hz] at h; simp at h
  | cons z zs =>
    rw [hz] at h
    simpa using h

theorem trim_last (p : Char → Bool) (xs : List Char) (c : Char)
    (h : (((xs.dropWhile p).reverse.dropWhile p).reverse).getLast? = some c) : p c = false := by
  rw [List.getLast?_reverse] at h
  exact head_dropWhile p _ c h

/-- C9: with a non-empty `PrivateKeyFile`, `GetPrivateKey` answers from the file whatever
`PrivateKey` holds: the content of the file without its leading and trailing white space and no
error, or the empty string and an error when the file cannot be read; with an empty
`PrivateKeyFile` it returns `PrivateKey` and no error, and logs the deprecation warning. -/
theorem getPrivateKey_precedence (fs : FileSystem) (cfg : ChainConfig) :
    (cfg.PrivateKeyFile ≠ "" →
      (∀ content, fs cfg.PrivateKeyFile = Except.ok content →
        (cfg.GetPrivateKey fs).err = none
        ∧ (cfg.GetPrivateKey fs).key = TrimSpace content
        ∧ (∃ l r, content.data = l ++ (cfg.GetPrivateKey fs).key.data ++ r
            ∧ (∀ c ∈ l, isSpace c = true) ∧ (∀ c ∈ r, isSpace c = true))
        ∧ (∀ c, (cfg.GetPrivateKey fs).key.data.head? = some c → isSpace c = false)
        ∧ (∀ c, (cfg.GetPrivateKey fs).key.data.getLast? = some c → isSpace c = false))
      ∧ (∀ e, fs cfg.PrivateKeyFile = Except.error e →
        (cfg.GetPrivateKey fs).key = ""
        ∧ (cfg.GetPrivateKey fs).err = some (Error.wrap e "error opening private key file"))
      ∧ ∀ inline, { cfg with PrivateKey := inline }.GetPrivateKey fs = cfg.GetPrivateKey fs)
    ∧ (cfg.PrivateKeyFile = "" →
        (cfg.GetPrivateKey fs).key = cfg.PrivateKey
        ∧ (cfg.GetPrivateKey fs).err = none
        ∧ (cfg.GetPrivateKey fs).logged
            = ["WARNING: using private_key is deprecated, use private_key_file instead"]) := by
  refine ⟨fun hfile => ⟨?_, ?_, ?_⟩, ?_⟩
  · intro content hread
    have hk : cfg.GetPrivateKey fs = { key := TrimSpace content, err := none, logged := [] } := by
      simp [ChainConfig.GetPrivateKey, hfile, hread]
    rw [hk]
    refine ⟨rfl, rfl, ?_, ?_, ?_⟩
    · refine ⟨content.data.takeWhile isSpace,
        ((content.data.dropWhile isSpace).reverse.takeWhile isSpace).reverse,
        trim_decompose isSpace content.data, ?_, ?_⟩
      · intro c hc
        exact List.mem_takeWhile_imp hc
      · intro c hc
        exact List.mem_takeWhile_imp (List.mem_reverse.mp hc)
    · intro c hc
      exact trim_head isSpace content.data c hc
    · intro c hc
      exact trim_last isSpace content.data c hc
  · intro e hread
    simp [ChainConfig.GetPrivateKey, hfile, hread]
  · intro inline
    simp [ChainConfig.GetPrivateKey, hfile]
  · intro hfile
    simp [ChainConfig.GetPrivateKey, hfile]

/-- Instance of C9: both an inline key and a readable key file are configured. -/
theorem getPrivateKey_precedence_witness :
    (sampleChain.GetPrivateKey sampleFS).err = none
    ∧ (sampleChain.GetPrivateKey sampleFS).key = "0xabc" :=
  have h := ((getPrivateKey_precedence sampleFS sampleChain).1 (by decide)).1 " 0xabc\n"
    (by simp [sampleFS, sampleChain])
  ⟨h.1, h.2.1.trans (by decide)⟩

theorem getPrivateKey_unreadable (fs : FileSystem) (cfg : ChainConfig) (e : Error)
    (hfile : cfg.PrivateKeyFile ≠ "") (hread : fs cfg.PrivateKeyFile = Except.error e) :
    (cfg.GetPrivateKey fs).err = some (Error.wrap e "error opening private key file") := by
  simp [ChainConfig.GetPrivateKey, hfile, hread]

end config

/-! ## Properties of the contract set-up -/

namespace cronjob

/-- C10: when the mirroring or the voting contract address is the zero address, or the
configured private-key file cannot be read, `initMirrorJobContracts` returns an error and no
contracts object; for a zero contract address it makes no outside call before returning, so no
RPC client is dialed, and the error names the address that is not set. -/
theorem initMirrorJobContracts_preflight (w : World) (cfg : Config)
    (h : cfg.ContractAddresses.Mirroring = Address.zero
      ∨ cfg.ContractAddresses.Voting = Address.zero
      ∨ (cfg.Chain.PrivateKeyFile ≠ ""
          ∧ ∃ e, w.fs cfg.Chain.PrivateKeyFile = Except.error e)) :
    (initMirrorJobContracts w cfg).contracts = none
    ∧ (initMirrorJobContracts w cfg).err ≠ none
    ∧ (cfg.ContractAddresses.Mirroring = Address.zero →
        initMirrorJobContracts w cfg
          = { contracts := none, err := some (Error.msg "mirroring contract address not set"),
              calls := [] })
    ∧ (cfg.ContractAddresses.Mirroring ≠ Address.zero →
        cfg.ContractAddresses.Voting = Address.zero →
        initMirrorJobContracts w cfg
          = { contracts := none, err := some (Error.msg "voting contract address not set"),
              calls := [] }) := by
  have hm : cfg.ContractAddresses.Mirroring = Address.zero →
      initMirrorJobContracts w cfg
        = { contracts := none, err := some (Error.msg "mirroring contract address not set"),
            calls := [] } := by
    intro h1
    simp [initMirrorJobContracts, h1]
  have hv : cfg.ContractAddresses.Mirroring ≠ Address.zero →
      cfg.ContractAddresses.Voting = Address.zero →
      initMirrorJobContracts w cfg
        = { contracts := none, err := some (Error.msg "voting contract address not set"),
            calls := [] } := by
    intro h1 h2
    simp [initMirrorJobContracts, h1, h2]
  refine ⟨?_, ?_, hm, hv⟩
  · by_cases h1 : cfg.ContractAddresses.Mirroring = Address.zero
    · rw [hm h1]
    · by_cases h2 : cfg.ContractAddresses.Voting = Address.zero
      · rw [hv h1 h2]
      · rcases h with h | h | ⟨hfile, e, hread⟩
        · exact absurd h h1
        · exact absurd h h2
        · have hk := config.getPrivateKey_unreadable w.fs cfg.Chain e hfile hread
          simp only [initMirrorJobContracts, h1, h2, if_false, hk]
          repeat' split
          all_goals rfl
  · by_cases h1 : cfg.ContractAddresses.Mirroring = Address.zero
    · rw [hm h1]
      simp
    · by_cases h2 : cfg.ContractAddresses.Voting = Address.zero
      · rw [hv h1 h2]
        simp
      · rcases h with h | h | ⟨hfile, e, hread⟩
        · exact absurd h h1
        · exact absurd h h2
        · have hk := config.getPrivateKey_unreadable w.fs cfg.Chain e hfile hread
          simp only [initMirrorJobContracts, h1, h2, if_false, hk]
          repeat' split
          all_goals simp_all

/-- Instance of C10: a configuration without voting address, and one whose key file is missing. -/
theorem initMirrorJobContracts_preflight_witness :
    ((initMirrorJobContracts sampleWorld configNoVoting).contracts = none
      ∧ (initMirrorJobContracts sampleWorld configNoVoting).err ≠ none)
    ∧ (initMirrorJobContracts sampleWorld configNoKeyFile).contracts = none
    ∧ (initMirrorJobContracts sampleWorld configNoKeyFile).err ≠ none :=
  have h1 := initMirrorJobContracts_preflight sampleWorld configNoVoting (Or.inr (Or.inl rfl))
  have h2 := initMirrorJobContracts_preflight sampleWorld configNoKeyFile
    (Or.inr (Or.inr ⟨by decide, Error.msg "no such file", by
      simp [sampleWorld, configNoKeyFile, config.sampleFS]⟩))
  ⟨⟨h1.1, h1.2.1⟩, h2.1, h2.2.1⟩

end cronjob
